import Mathlib

/-!
Verification development for the sfedits PII-detection repository.

The repository has two entry points:
* `src/pii-analyzer.py` — a one-shot CLI that registers a custom SSN
  pattern recognizer on top of the Presidio analyzer engine and prints a
  JSON result `{has_pii, entities:[{type,text,score}]}`.
* `src/pii-service/app.py` — a Flask service exposing `/analyze`, which
  runs the engine, optionally filters by `blocked_entity_types`, and
  returns `{has_pii, entities:[{type,score,start,end}]}`.

The detection engine itself (pattern matching, overlap resolution,
threshold filtering) lives in the external Presidio library, not in this
repository; where its behaviour decides a claim it is modelled from the
spec (see the definitions whose doc comments begin `Modelled from the
spec:`). Scores are modelled as rationals; text as a list of characters.
-/

/-- Text is modelled as a list of characters; `start`/`end` offsets are
character indices. -/
abbrev Text := List Char

/-- A candidate detection, Presidio's `RecognizerResult`: the spec's
Candidate Match `{entity_type, start, end, score}`.  The Python `end`
field is named `end_` because `end` is a Lean keyword. -/
structure RecognizerResult where
  entity_type : String
  start : Nat
  end_ : Nat
  score : ℚ
deriving DecidableEq, Repr

/-- Word characters, for the regex `\b` word-boundary assertion:
letters, digits and underscore. -/
def isWordChar (c : Char) : Bool := c.isAlphanum || c = '_'

/-- The character at index `i`, if any. -/
def charAt (t : Text) (i : Nat) : Option Char := t[i]?

/-- Does the character at index `i` exist and satisfy `p`? -/
def charIs (t : Text) (i : Nat) (p : Char → Bool) : Bool :=
  match charAt t i with
  | some c => p c
  | none => false

/-- Is the character at index `i` a decimal digit? -/
def isDigitAt (t : Text) (i : Nat) : Bool := charIs t i Char.isDigit

/-- Are the `n` characters starting at index `i` all decimal digits?
Models `\d{n}` anchored at `i`. -/
def allDigits (t : Text) (i n : Nat) : Bool :=
  (List.range n).all (fun k => isDigitAt t (i + k))

/-- The regex `\b` assertion between index `i - 1` and index `i`, for a
match whose first character (at `i`) is a word character: it holds when
`i` is the start of the text or the previous character is not a word
character. -/
def boundaryBefore (t : Text) (i : Nat) : Bool :=
  match i with
  | 0 => true
  | j + 1 =>
    match charAt t j with
    | some c => !isWordChar c
    | none => true

/-- The regex `\b` assertion at the end of a match ending just before
index `i`, for a match whose last character is a word character: it
holds when `i` is past the end of the text or the character at `i` is
not a word character. -/
def boundaryAfter (t : Text) (i : Nat) : Bool :=
  match charAt t i with
  | some c => !isWordChar c
  | none => true

/-- The character class `[-\s]` used between SSN digit groups. -/
def isDashOrSpace (c : Char) : Bool := c = '-' || c.isWhitespace

/-- The character class `[\s:=]` separating an SSN context keyword from
the digits. -/
def isSepClass (c : Char) : Bool := c.isWhitespace || c = ':' || c = '='

/-- Generic left-to-right scan, modelling `re.finditer`: at each index
try an anchored match; on success emit its payload and resume at the
returned position (at least one past the current index), otherwise
advance by one.  `fuel` bounds the recursion; `scan` supplies
`t.length + 1` which is enough since every step advances. -/
def scanFrom (tlen : Nat) (tryAt : Nat → Option (α × Nat)) :
    Nat → Nat → List α
  | _, 0 => []
  | i, fuel + 1 =>
    if i > tlen then []
    else
      match tryAt i with
      | some (a, e) => a :: scanFrom tlen tryAt (max e (i + 1)) fuel
      | none => scanFrom tlen tryAt (i + 1) fuel

/-- All matches of an anchored matcher over a text, leftmost first. -/
def scan (t : Text) (tryAt : Nat → Option (α × Nat)) : List α :=
  scanFrom t.length tryAt 0 (t.length + 1)

/-- Anchored match of pattern `ssn_with_dashes`,
`\b\d{3}-\d{2}-\d{4}\b` (src/pii-analyzer.py line 32): on success the
payload is the `[start, end)` span and the resume position. -/
def tryDashesAt (t : Text) (i : Nat) : Option ((Nat × Nat) × Nat) :=
  if boundaryBefore t i && allDigits t i 3 && charIs t (i + 3) (· = '-') &&
      allDigits t (i + 4) 2 && charIs t (i + 6) (· = '-') &&
      allDigits t (i + 7) 4 && boundaryAfter t (i + 11) then
    some ((i, i + 11), i + 11)
  else none

/-- Anchored match of pattern `ssn_with_spaces`,
`\b\d{3}\s\d{2}\s\d{4}\b` (src/pii-analyzer.py line 37). -/
def trySpacesAt (t : Text) (i : Nat) : Option ((Nat × Nat) × Nat) :=
  if boundaryBefore t i && allDigits t i 3 && charIs t (i + 3) Char.isWhitespace &&
      allDigits t (i + 4) 2 && charIs t (i + 6) Char.isWhitespace &&
      allDigits t (i + 7) 4 && boundaryAfter t (i + 11) then
    some ((i, i + 11), i + 11)
  else none

/-- Anchored match of pattern `ssn_no_separators`, `\b\d{9}\b`
(src/pii-analyzer.py line 42). -/
def tryNoSepAt (t : Text) (i : Nat) : Option ((Nat × Nat) × Nat) :=
  if boundaryBefore t i && allDigits t i 9 && boundaryAfter t (i + 9) then
    some ((i, i + 9), i + 9)
  else none

/-- Case-insensitive anchored match of a literal keyword given in lower
case, one character at a time. -/
def matchKw (t : Text) : Nat → List Char → Bool
  | _, [] => true
  | i, c :: rest => charIs t i (fun d => d.toLower = c) && matchKw t (i + 1) rest

/-- The keyword alternation `(?:ssn|social security number|social
security|ss#)` of pattern `ssn_with_context` (src/pii-analyzer.py line
47), tried left to right; returns the index just past the keyword. -/
def tryKw (t : Text) (i : Nat) : Option Nat :=
  if matchKw t i "ssn".data then some (i + 3)
  else if matchKw t i "social security number".data then some (i + 22)
  else if matchKw t i "social security".data then some (i + 15)
  else if matchKw t i "ss#".data then some (i + 3)
  else none

/-- End of the maximal run of `[\s:=]` characters starting at `j`.
Greedy consumption is exact here: the following digit group cannot start
with a separator character, so backtracking never helps. -/
def sepRunEnd (t : Text) : Nat → Nat → Nat
  | j, 0 => j
  | j, fuel + 1 => if charIs t j isSepClass then sepRunEnd t (j + 1) fuel else j

/-- Tail `\d{2}[-\s]?\d{4}` of the `ssn_with_context` capturing
group, anchored at `a`; returns the index just past it. -/
def parseTail (t : Text) (a : Nat) : Option Nat :=
  if allDigits t a 2 then
    if charIs t (a + 2) isDashOrSpace then
      if allDigits t (a + 3) 4 then some (a + 7) else none
    else
      if allDigits t (a + 2) 4 then some (a + 6) else none
  else none

/-- The capturing group `(\d{3}[-\s]?\d{2}[-\s]?\d{4})` of
`ssn_with_context`, anchored at `j`; returns the index just past the
group.  The optional separators are deterministic: a separator character
is never a digit, so consuming one exactly when present matches the
regex's backtracking behaviour. -/
def parseGroup (t : Text) (j : Nat) : Option Nat :=
  if allDigits t j 3 then
    if charIs t (j + 3) isDashOrSpace then parseTail t (j + 4)
    else parseTail t (j + 3)
  else none

/-- Modelled from the spec: Presidio's span semantics for the
context-sensitive pattern are not in this repository; per the spec a
context pattern "must return the span of the numeric group only, not
the keyword".  Anchored match of `ssn_with_context`: keyword, then one
or more `[\s:=]`, then the digit group; the emitted span is the
capturing group's, scanning resumes after the full match. -/
def tryContextAt (t : Text) (i : Nat) : Option ((Nat × Nat) × Nat) :=
  match tryKw t i with
  | none => none
  | some k =>
    let j := sepRunEnd t k (t.length + 1 - k)
    if k < j then
      match parseGroup t j with
      | some e => some ((j, e), e)
      | none => none
    else none

/-- All spans produced by the `ssn_with_context` pattern on a text. -/
def contextMatches (t : Text) : List (Nat × Nat) := scan t (tryContextAt t)

/-- Candidates of the custom SSN recognizer (src/pii-analyzer.py,
`create_custom_ssn_recognizer`): the four patterns evaluated
independently, each match tagged `CUSTOM_SSN` with its pattern's base
score. -/
def customSSNCandidates (t : Text) : List RecognizerResult :=
  (scan t (tryDashesAt t)).map
      (fun s => ⟨"CUSTOM_SSN", s.1, s.2, mkRat 9 10⟩) ++
    (scan t (trySpacesAt t)).map
      (fun s => ⟨"CUSTOM_SSN", s.1, s.2, mkRat 9 10⟩) ++
    (scan t (tryNoSepAt t)).map
      (fun s => ⟨"CUSTOM_SSN", s.1, s.2, mkRat 7 10⟩) ++
    (contextMatches t).map
      (fun s => ⟨"CUSTOM_SSN", s.1, s.2, mkRat 95 100⟩)

/-- Insertion of an element into a list sorted by a boolean comparator. -/
def insertB (le : α → α → Bool) (a : α) : List α → List α
  | [] => [a]
  | b :: bs => if le a b then a :: b :: bs else b :: insertB le a bs

/-- Insertion sort by a boolean comparator; only its permutation
property is used in the proofs, never sortedness, so the comparator
needs no totality assumptions. -/
def sortB (le : α → α → Bool) : List α → List α
  | [] => []
  | a :: as => insertB le a (sortB le as)

/-- Decidable rational comparison by cross-multiplication, used inside
the executable pipeline (the kernel cannot reduce the `Rat` order
instances directly). `qle a b` decides `a ≤ b`. -/
def qle (a b : ℚ) : Bool := a.num * (b.den : ℤ) ≤ b.num * (a.den : ℤ)

/-- Decidable strict rational comparison: `qlt a b` decides `a < b`. -/
def qlt (a b : ℚ) : Bool := a.num * (b.den : ℤ) < b.num * (a.den : ℤ)

/-- Do two candidate spans `[start, end)` share at least one character
position? -/
def overlapsB (a b : RecognizerResult) : Bool :=
  a.start < b.end_ && b.start < a.end_

/-- Modelled from the spec: the orchestrator's ranking for overlap
resolution, "sort all candidates by score descending (ties broken by
longer span, then by earlier start)".  `a` ranks no later than `b`. -/
def rankLe (a b : RecognizerResult) : Bool :=
  if a.score = b.score then
    if b.end_ - b.start = a.end_ - a.start then a.start ≤ b.start
    else b.end_ - b.start < a.end_ - a.start
  else qlt b.score a.score

/-- Ordering of final entities by `start` ascending. -/
def startLe (a b : RecognizerResult) : Bool := a.start ≤ b.start

/-- One step of the greedy sweep: keep `c` only if it overlaps no
already-kept candidate. -/
def keepStep (kept : List RecognizerResult) (c : RecognizerResult) :
    List RecognizerResult :=
  if kept.any (fun k => overlapsB k c) then kept else kept ++ [c]

/-- Modelled from the spec: the greedy non-maximum-suppression sweep,
"walk the sorted list and keep a candidate only if it does not overlap
any already-kept candidate". -/
def resolveOverlaps (pool : List RecognizerResult) : List RecognizerResult :=
  pool.foldl keepStep []

/-- Restriction of the candidate pool to the allowed entity types,
when a restriction is given (the spec's step 1: only recognizers whose
entity type is allowed contribute candidates). -/
def allowedFilter (allowed : Option (List String))
    (pool : List RecognizerResult) : List RecognizerResult :=
  match allowed with
  | none => pool
  | some a => pool.filter (fun c => c.entity_type ∈ a)

/-- Modelled from the spec: the Analysis Orchestrator of section 4.3
(Presidio's `AnalyzerEngine.analyze`, which is not in this repository):
restrict candidates to the allowed entity types when given, sort by
rank, resolve overlaps greedily, drop candidates below the score
threshold, and sort the survivors by start. -/
def orchestrate (pool : List RecognizerResult) (allowed : Option (List String))
    (threshold : ℚ) : List RecognizerResult :=
  sortB startLe
    ((resolveOverlaps (sortB rankLe (allowedFilter allowed pool))).filter
      (fun c => qle threshold c.score))

/-- Python's `round(x, 2)` on the rational score model: round to an
integer number of hundredths, `⌊100q + 1/2⌋ / 100`, computed on the
numerator and denominator so the kernel can evaluate it
(`100q + 1/2 = (200 num + den) / (2 den)` exactly).  Tie behaviour is
irrelevant to the claims; no score here sits on a half-hundredth. -/
def round2 (q : ℚ) : ℚ :=
  mkRat (Int.fdiv (200 * q.num + (q.den : ℤ)) (2 * (q.den : ℤ))) 100

/-- The Python slice `text[start:end]`. -/
def sliceText (t : Text) (s e : Nat) : Text := (t.drop s).take (e - s)

/-- One entity of the CLI output: the dict built at
src/pii-analyzer.py lines 88-92, keys `type`, `text`, `score`. -/
structure CliEntity where
  type : String
  text : Text
  score : ℚ
deriving DecidableEq, Repr

/-- The CLI result dict of `analyze_text_for_pii`:
`{'has_pii': …, 'entities': …}`. -/
structure CliResult where
  has_pii : Bool
  entities : List CliEntity
deriving DecidableEq, Repr

/-- The CLI's requested entity types (src/pii-analyzer.py line 81). -/
def cliEntityTypes : List String :=
  ["EMAIL_ADDRESS", "PHONE_NUMBER", "CUSTOM_SSN", "CREDIT_CARD"]

/-- `analyze_text_for_pii` of src/pii-analyzer.py: run the engine with
the custom SSN recognizer registered, requested entity types as at line
81 and score threshold 0.4, then assemble the result dict.  The
engine's other recognizers (Presidio built-ins and the NLP model) are
external; their candidates on this text enter as the parameter
`others`. -/
def analyze_text_for_pii (others : List RecognizerResult) (text : Text) :
    CliResult :=
  let results :=
    orchestrate (customSSNCandidates text ++ others) (some cliEntityTypes) (mkRat 2 5)
  { has_pii := decide (0 < results.length),
    entities := results.map
      (fun r => ⟨r.entity_type, sliceText text r.start r.end_, round2 r.score⟩) }

/-- A JSON value, for stating the shape of what the entry points print. -/
inductive Json where
  | str : Text → Json
  | num : ℚ → Json
  | bool : Bool → Json
  | arr : List Json → Json
  | obj : List (String × Json) → Json
deriving Repr

/-- The JSON document the CLI prints on success. -/
def encodeCliResult (r : CliResult) : Json :=
  Json.obj
    [("has_pii", Json.bool r.has_pii),
     ("entities", Json.arr (r.entities.map
       (fun e => Json.obj
         [("type", Json.str e.type.data),
          ("text", Json.str e.text),
          ("score", Json.num e.score)])))]

/-- The `__main__` block of src/pii-analyzer.py: with fewer than two
argv entries print `{'error': 'No text provided'}` and exit 1,
otherwise analyze `argv[1]` and print the result, exiting 0.  Returns
the printed document and the exit status. -/
def cliMain (others : List RecognizerResult) (argv : List String) :
    Json × Nat :=
  if argv.length < 2 then
    (Json.obj [("error", Json.str "No text provided".data)], 1)
  else
    (encodeCliResult (analyze_text_for_pii others ((argv[1]?.getD "").data)), 0)

/-- One entity of the service response: the dict built at
src/pii-service/app.py lines 43-48, keys `type`, `score`, `start`,
`end`. -/
structure ServiceEntity where
  type : String
  score : ℚ
  start : Nat
  end_ : Nat
deriving DecidableEq, Repr

/-- The service response body `{has_pii, entities}`. -/
structure ServiceResult where
  has_pii : Bool
  entities : List ServiceEntity
deriving DecidableEq, Repr

/-- Python truthiness of the `blocked_entity_types` value: `None` and
the empty list are falsy (src/pii-service/app.py line 40 `if
blocked_types:`). -/
def truthy : Option (List String) → Bool
  | none => false
  | some l => !l.isEmpty

/-- The filter at src/pii-service/app.py lines 40-41: when
`blocked_types` is truthy keep only results whose entity type is in it,
otherwise pass everything through. -/
def blockFilter (blocked : Option (List String)) (rs : List RecognizerResult) :
    List RecognizerResult :=
  if truthy blocked then rs.filter (fun r => r.entity_type ∈ blocked.getD [])
  else rs

/-- The body of the `/analyze` route after the engine call
(src/pii-service/app.py lines 39-53): filter, assemble entities, derive
`has_pii`.  `engineOut` stands for `analyzer.analyze(text=text,
language='en')`, whose implementation is external to this repository. -/
def analyzeRoute (engineOut : List RecognizerResult)
    (blocked : Option (List String)) : ServiceResult :=
  let results := blockFilter blocked engineOut
  { has_pii := decide (0 < results.length),
    entities := results.map (fun r => ⟨r.entity_type, r.score, r.start, r.end_⟩) }

/-- A parsed `/analyze` request body: both fields of the JSON object,
each possibly absent.  `none` for the whole body models a request
whose body is absent or not a JSON object. -/
structure ServiceRequest where
  text : Option Text
  blocked_entity_types : Option (List String)

/-- The full `/analyze` route (src/pii-service/app.py lines 26-53):
missing body or missing `text` field gives a 400 error response,
otherwise the engine runs on the text and the result is returned with
status 200.  The engine is the external Presidio analyzer, passed as a
function. -/
def analyzeEndpoint (engine : Text → List RecognizerResult)
    (data : Option ServiceRequest) : (Json ⊕ ServiceResult) × Nat :=
  match data with
  | none => (Sum.inl (Json.obj [("error", Json.str "Missing text field".data)]), 400)
  | some req =>
    match req.text with
    | none => (Sum.inl (Json.obj [("error", Json.str "Missing text field".data)]), 400)
    | some t => (Sum.inr (analyzeRoute (engine t) req.blocked_entity_types), 200)

/-- The spec's Candidate Match well-formedness invariant, Data Model
section 3: `0 <= start < end <= len(text)`. -/
def validCandidate (t : Text) (c : RecognizerResult) : Prop :=
  c.start < c.end_ ∧ c.end_ ≤ t.length

/-- Non-overlap of two candidates, the relation the greedy sweep
establishes pairwise. -/
def NoOv (a b : RecognizerResult) : Prop := overlapsB a b = false

/-- Span-disjointness of two `[start, end)` ranges: one ends no later
than the other starts. -/
def spansDisjoint (s1 e1 s2 e2 : Nat) : Prop := e1 ≤ s2 ∨ e2 ≤ s1

/-- The character class of the `ssn_with_context` capturing group:
digits and the `[-\s]` separators, the only characters a produced span
may contain. -/
def isGroupChar (c : Char) : Bool := c.isDigit || isDashOrSpace c

/-! Helper lemmas about the sorting, sweeping and filtering machinery. -/

theorem perm_insertB (le : α → α → Bool) (a : α) :
    ∀ l : List α, List.Perm (insertB le a l) (a :: l)
  | [] => List.Perm.refl _
  | b :: bs => by
    unfold insertB
    split
    · exact List.Perm.refl _
    · exact (List.Perm.cons b (perm_insertB le a bs)).trans (List.Perm.swap a b bs)

theorem perm_sortB (le : α → α → Bool) : ∀ l : List α, List.Perm (sortB le l) l
  | [] => List.Perm.refl _
  | a :: as => (perm_insertB le a (sortB le as)).trans ((perm_sortB le as).cons a)

theorem overlapsB_comm (a b : RecognizerResult) : overlapsB a b = overlapsB b a := by
  unfold overlapsB
  exact Bool.and_comm _ _

theorem noOv_symmetric : Symmetric NoOv := by
  intro a b h
  unfold NoOv at *
  rw [overlapsB_comm]
  exact h

theorem pairwise_keepStep {kept : List RecognizerResult} {c : RecognizerResult}
    (h : kept.Pairwise NoOv) : (keepStep kept c).Pairwise NoOv := by
  unfold keepStep
  split
  · exact h
  · next hany =>
    rw [List.pairwise_append]
    refine ⟨h, List.pairwise_singleton _ _, ?_⟩
    intro a ha b hb
    rw [List.mem_singleton] at hb
    subst hb
    simp only [List.any_eq_true] at hany
    push_neg at hany
    have h3 := hany a ha
    unfold NoOv
    simp only [Bool.not_eq_true] at h3
    exact h3

theorem pairwise_foldl_keepStep :
    ∀ (l : List RecognizerResult) (kept : List RecognizerResult),
      kept.Pairwise NoOv → (List.foldl keepStep kept l).Pairwise NoOv
  | [], _, h => h
  | c :: l, kept, h =>
    pairwise_foldl_keepStep l (keepStep kept c) (pairwise_keepStep h)

theorem pairwise_resolveOverlaps (pool : List RecognizerResult) :
    (resolveOverlaps pool).Pairwise NoOv :=
  pairwise_foldl_keepStep pool [] List.Pairwise.nil

theorem mem_keepStep {x : RecognizerResult} {kept : List RecognizerResult}
    {c : RecognizerResult} (h : x ∈ keepStep kept c) : x ∈ kept ∨ x = c := by
  unfold keepStep at h
  split at h
  · exact Or.inl h
  · rw [List.mem_append, List.mem_singleton] at h
    exact h

theorem mem_foldl_keepStep :
    ∀ (l : List RecognizerResult) (kept : List RecognizerResult)
      (x : RecognizerResult), x ∈ List.foldl keepStep kept l → x ∈ kept ∨ x ∈ l := by
  intro l
  induction l with
  | nil =>
    intro kept x h
    exact Or.inl h
  | cons c l ih =>
    intro kept x h
    rcases ih (keepStep kept c) x h with h1 | h1
    · rcases mem_keepStep h1 with h2 | h2
      · exact Or.inl h2
      · exact Or.inr (h2 ▸ List.mem_cons_self c l)
    · exact Or.inr (List.mem_cons_of_mem c h1)

theorem mem_resolveOverlaps {x : RecognizerResult} {pool : List RecognizerResult}
    (h : x ∈ resolveOverlaps pool) : x ∈ pool := by
  rcases mem_foldl_keepStep pool [] x h with h1 | h1
  · simp at h1
  · exact h1

theorem mem_orchestrate {r : RecognizerResult} {pool : List RecognizerResult}
    {allowed : Option (List String)} {θ : ℚ}
    (h : r ∈ orchestrate pool allowed θ) : r ∈ allowedFilter allowed pool := by
  unfold orchestrate at h
  have h1 := (perm_sortB startLe _).mem_iff.mp h
  rw [List.mem_filter] at h1
  exact (perm_sortB rankLe _).mem_iff.mp (mem_resolveOverlaps h1.1)

theorem pairwise_orchestrate (pool : List RecognizerResult)
    (allowed : Option (List String)) (θ : ℚ) :
    (orchestrate pool allowed θ).Pairwise NoOv := by
  unfold orchestrate
  have h1 := pairwise_resolveOverlaps (sortB rankLe (allowedFilter allowed pool))
  have h2 : (List.filter (fun c => qle θ c.score)
      (resolveOverlaps (sortB rankLe (allowedFilter allowed pool)))).Pairwise NoOv :=
    List.Pairwise.sublist (List.filter_sublist _) h1
  exact ((perm_sortB startLe _).pairwise_iff (fun h => noOv_symmetric h)).mpr h2

/-- `blockFilter` never invents results: its output is a sublist of the
engine's. -/
theorem blockFilter_sublist (blocked : Option (List String))
    (rs : List RecognizerResult) : List.Sublist (blockFilter blocked rs) rs := by
  unfold blockFilter
  split
  · exact List.filter_sublist rs
  · exact List.Sublist.refl rs

theorem mem_scanFrom {tlen : Nat} {tryAt : Nat → Option (α × Nat)} :
    ∀ {fuel i : Nat} {a : α}, a ∈ scanFrom tlen tryAt i fuel →
      ∃ j e, tryAt j = some (a, e) := by
  intro fuel
  induction fuel with
  | zero =>
    intro i a h
    simp [scanFrom] at h
  | succ n ih =>
    intro i a h
    unfold scanFrom at h
    split at h
    · simp at h
    · split at h
      · next pa e heq =>
        rcases List.mem_cons.mp h with h1 | h1
        · exact ⟨i, e, h1 ▸ heq⟩
        · exact ih h1
      · exact ih h

theorem mem_scan {t : Text} {tryAt : Nat → Option (α × Nat)} {a : α}
    (h : a ∈ scan t tryAt) : ∃ j e, tryAt j = some (a, e) :=
  mem_scanFrom h

theorem le_sepRunEnd (t : Text) : ∀ (fuel j : Nat), j ≤ sepRunEnd t j fuel := by
  intro fuel
  induction fuel with
  | zero =>
    intro j
    simp [sepRunEnd]
  | succ n ih =>
    intro j
    unfold sepRunEnd
    split
    · exact Nat.le_trans (Nat.le_succ j) (ih (j + 1))
    · exact Nat.le_refl j

theorem sepRunEnd_last (t : Text) :
    ∀ (fuel j : Nat), j < sepRunEnd t j fuel →
      charIs t (sepRunEnd t j fuel - 1) isSepClass = true := by
  intro fuel
  induction fuel with
  | zero =>
    intro j h
    simp [sepRunEnd] at h
  | succ n ih =>
    intro j h
    by_cases hc : charIs t j isSepClass = true
    · have hrw : sepRunEnd t j (n + 1) = sepRunEnd t (j + 1) n := by
        show (if charIs t j isSepClass = true then sepRunEnd t (j + 1) n else j) =
          sepRunEnd t (j + 1) n
        rw [if_pos hc]
      rw [hrw] at h ⊢
      by_cases h2 : j + 1 < sepRunEnd t (j + 1) n
      · exact ih (j + 1) h2
      · have h3 : sepRunEnd t (j + 1) n = j + 1 :=
          Nat.le_antisymm (Nat.not_lt.mp h2) (le_sepRunEnd t n (j + 1))
        rw [h3]
        simpa using hc
    · have hrw : sepRunEnd t j (n + 1) = j := by
        show (if charIs t j isSepClass = true then sepRunEnd t (j + 1) n else j) = j
        rw [if_neg hc]
      rw [hrw] at h
      omega

theorem allDigits_mem {t : Text} {i n : Nat} (h : allDigits t i n = true) :
    ∀ p, i ≤ p → p < i + n → isDigitAt t p = true := by
  intro p h1 h2
  have h3 := List.all_eq_true.mp h (p - i) (List.mem_range.mpr (by omega))
  have h4 : i + (p - i) = p := by omega
  rw [h4] at h3
  exact h3

theorem charIs_mono {t : Text} {i : Nat} {p q : Char → Bool}
    (h : charIs t i p = true) (hpq : ∀ c, p c = true → q c = true) :
    charIs t i q = true := by
  unfold charIs at *
  cases hc : charAt t i with
  | none => rw [hc] at h; exact Bool.noConfusion h
  | some c => rw [hc] at h; exact hpq c h

theorem digit_groupChar {t : Text} {q : Nat} (hq : isDigitAt t q = true) :
    charIs t q isGroupChar = true :=
  charIs_mono hq (by intro c hc; simp [isGroupChar, hc])

theorem sep_groupChar {t : Text} {q : Nat} (hq : charIs t q isDashOrSpace = true) :
    charIs t q isGroupChar = true :=
  charIs_mono hq (by intro c hc; simp [isGroupChar, hc])

theorem parseTail_chars {t : Text} {a e : Nat} (h : parseTail t a = some e) :
    a + 6 ≤ e ∧ ∀ p, a ≤ p → p < e → charIs t p isGroupChar = true := by
  unfold parseTail at h
  by_cases h2 : allDigits t a 2 = true
  · rw [if_pos h2] at h
    by_cases hs : charIs t (a + 2) isDashOrSpace = true
    · rw [if_pos hs] at h
      by_cases h4 : allDigits t (a + 3) 4 = true
      · rw [if_pos h4] at h
        have he : e = a + 7 := (Option.some.inj h).symm
        subst he
        refine ⟨by omega, ?_⟩
        intro p hp1 hp2
        rcases (by omega : p < a + 2 ∨ p = a + 2 ∨ (a + 3 ≤ p ∧ p < a + 7)) with
          hp | hp | hp
        · exact digit_groupChar (allDigits_mem h2 p hp1 hp)
        · exact hp ▸ sep_groupChar hs
        · exact digit_groupChar (allDigits_mem h4 p hp.1 (by omega))
      · rw [if_neg h4] at h
        exact absurd h (by simp)
    · rw [if_neg hs] at h
      by_cases h4 : allDigits t (a + 2) 4 = true
      · rw [if_pos h4] at h
        have he : e = a + 6 := (Option.some.inj h).symm
        subst he
        refine ⟨by omega, ?_⟩
        intro p hp1 hp2
        rcases (by omega : p < a + 2 ∨ (a + 2 ≤ p ∧ p < a + 6)) with hp | hp
        · exact digit_groupChar (allDigits_mem h2 p hp1 hp)
        · exact digit_groupChar (allDigits_mem h4 p hp.1 (by omega))
      · rw [if_neg h4] at h
        exact absurd h (by simp)
  · rw [if_neg h2] at h
    exact absurd h (by simp)

theorem parseGroup_chars {t : Text} {j e : Nat} (h : parseGroup t j = some e) :
    ∀ p, j ≤ p → p < e → charIs t p isGroupChar = true := by
  unfold parseGroup at h
  by_cases h3 : allDigits t j 3 = true
  · rw [if_pos h3] at h
    by_cases hs : charIs t (j + 3) isDashOrSpace = true
    · rw [if_pos hs] at h
      obtain ⟨hle, htail⟩ := parseTail_chars h
      intro p hp1 hp2
      rcases (by omega : p < j + 3 ∨ p = j + 3 ∨ j + 4 ≤ p) with hp | hp | hp
      · exact digit_groupChar (allDigits_mem h3 p hp1 hp)
      · exact hp ▸ sep_groupChar hs
      · exact htail p hp hp2
    · rw [if_neg hs] at h
      obtain ⟨hle, htail⟩ := parseTail_chars h
      intro p hp1 hp2
      rcases (by omega : p < j + 3 ∨ j + 3 ≤ p) with hp | hp
      · exact digit_groupChar (allDigits_mem h3 p hp1 hp)
      · exact htail p hp hp2
  · rw [if_neg h3] at h
    exact absurd h (by simp)

theorem tryContextAt_spec {t : Text} {i r : Nat} {se : Nat × Nat}
    (h : tryContextAt t i = some (se, r)) :
    (∀ p, se.1 ≤ p → p < se.2 → charIs t p isGroupChar = true) ∧
      0 < se.1 ∧ charIs t (se.1 - 1) isSepClass = true := by
  unfold tryContextAt at h
  split at h
  · exact absurd h (by simp)
  · next k hk =>
    simp only at h
    split at h
    · next hlt =>
      split at h
      · next e hpg =>
        have h2 := Option.some.inj h
        have hse : se = (sepRunEnd t k (t.length + 1 - k), e) :=
          (congrArg Prod.fst h2).symm
        subst hse
        refine ⟨parseGroup_chars hpg, ?_, sepRunEnd_last t _ k hlt⟩
        show 0 < sepRunEnd t k (t.length + 1 - k)
        omega
      · exact absurd h (by simp)
    · exact absurd h (by simp)

/-! The claims. -/

/-- C1 (counterexample): `blocked_entity_types = []` does not act as an
allow-list: a detected EMAIL_ADDRESS candidate still appears in the
service response even though its type is not a member of the supplied
empty set, because `if blocked_types:` treats an empty list as absent. -/
theorem C1_blocked_empty_counterexample :
    (analyzeRoute [⟨"EMAIL_ADDRESS", 0, 5, mkRat 1 2⟩] (some [])).entities =
      [⟨"EMAIL_ADDRESS", mkRat 1 2, 0, 5⟩] ∧
    "EMAIL_ADDRESS" ∉ ([] : List String) := by
  exact ⟨rfl, by simp⟩

/-- C1 (amended): for every supplied non-empty `blocked_entity_types`
list, the returned entity list is exactly the detected candidates whose
entity type is a member of that list (a positive allow-list); a supplied
empty list does not filter — it behaves as if the parameter were
omitted. -/
theorem C1_blocked_filter_allow_list (engineOut : List RecognizerResult)
    (bt : List String) (hbt : bt ≠ []) :
    (analyzeRoute engineOut (some bt)).entities =
      (engineOut.filter (fun r => r.entity_type ∈ bt)).map
        (fun r => ⟨r.entity_type, r.score, r.start, r.end_⟩) := by
  cases bt with
  | nil => exact absurd rfl hbt
  | cons b bs => simp [analyzeRoute, blockFilter, truthy]

/-- C1 (witness): the allow-list equation at a concrete request. -/
theorem C1_witness :
    (analyzeRoute [⟨"EMAIL_ADDRESS", 0, 5, mkRat 1 2⟩, ⟨"PERSON", 6, 9, mkRat 1 2⟩]
        (some ["EMAIL_ADDRESS"])).entities =
      ([⟨"EMAIL_ADDRESS", 0, 5, mkRat 1 2⟩,
        (⟨"PERSON", 6, 9, mkRat 1 2⟩ : RecognizerResult)].filter
          (fun r => r.entity_type ∈ ["EMAIL_ADDRESS"])).map
        (fun r => ⟨r.entity_type, r.score, r.start, r.end_⟩) :=
  C1_blocked_filter_allow_list _ _ (by simp)

/-- C4: in both the CLI result and the service response, `has_pii` is
true exactly when the entity list is non-empty, for every input and
configuration. -/
theorem C4_has_pii_iff_nonempty :
    ∀ (others : List RecognizerResult) (t : Text)
      (engineOut : List RecognizerResult) (blocked : Option (List String)),
      ((analyze_text_for_pii others t).has_pii = true ↔
        (analyze_text_for_pii others t).entities ≠ []) ∧
      ((analyzeRoute engineOut blocked).has_pii = true ↔
        (analyzeRoute engineOut blocked).entities ≠ []) := by
  intro others t engineOut blocked
  constructor
  · simp [analyze_text_for_pii, List.length_pos]
  · simp [analyzeRoute, List.length_pos]

/-- C7: the `blocked_entity_types` subset filter is idempotent — for
every candidate list and every supplied (or absent) filter value,
applying it twice equals applying it once. -/
theorem C7_filter_idempotent :
    ∀ (blocked : Option (List String)) (rs : List RecognizerResult),
      blockFilter blocked (blockFilter blocked rs) = blockFilter blocked rs := by
  intro blocked rs
  unfold blockFilter
  split
  · rw [List.filter_filter]
    simp
  · rfl

/-- C9: supplying `blocked_entity_types` as an empty list behaves
exactly like omitting the field: the filter branch is skipped and every
detected entity is surfaced. -/
theorem C9_empty_list_as_omitted :
    ∀ engineOut : List RecognizerResult,
      analyzeRoute engineOut (some []) = analyzeRoute engineOut none := by
  intro engineOut
  rfl

/-- C2: every span the context-sensitive SSN pattern produces consists
only of group characters (digits, dashes, whitespace) — so it can never
include a keyword letter — and is immediately preceded by a separator
character (whitespace, colon or equals), i.e. it covers the numeric
group only; and analyzing "SSN: 123-45-6789" (the external recognizers
contributing nothing on it) yields exactly one CUSTOM_SSN entity whose
text is exactly "123-45-6789", with score 0.95 ≥ 0.9. -/
theorem C2_ssn_context_numeric_span :
    (∀ (t : Text) (se : Nat × Nat), se ∈ contextMatches t →
      (∀ p, se.1 ≤ p → p < se.2 → charIs t p isGroupChar = true) ∧
      0 < se.1 ∧ charIs t (se.1 - 1) isSepClass = true) ∧
    analyze_text_for_pii [] "SSN: 123-45-6789".data =
      ⟨true, [⟨"CUSTOM_SSN", "123-45-6789".data, mkRat 19 20⟩]⟩ ∧
    (mkRat 9 10 : ℚ) ≤ mkRat 19 20 := by
  refine ⟨?_, by decide, ?_⟩
  · intro t se hmem
    obtain ⟨j, e, hj⟩ := mem_scan hmem
    exact tryContextAt_spec hj
  · rw [Rat.mkRat_eq_div, Rat.mkRat_eq_div]
    norm_num

/-- C2 (witness): the span `[5, 16)` produced on "SSN: 123-45-6789"
starts with a group character and is preceded by a separator. -/
theorem C2_witness :
    charIs "SSN: 123-45-6789".data 5 isGroupChar = true ∧
    charIs "SSN: 123-45-6789".data 4 isSepClass = true := by
  have h := C2_ssn_context_numeric_span.1 "SSN: 123-45-6789".data (5, 16) (by decide)
  exact ⟨h.1 5 (by decide) (by decide), h.2.2⟩

/-- C3 (counterexample): the service does not round: an engine result
with score 0.855 is surfaced with score 0.855, which is not equal to
its own two-decimal rounding. -/
theorem C3_service_score_not_rounded :
    (analyzeRoute [⟨"EMAIL_ADDRESS", 0, 5, mkRat 855 1000⟩] none).entities =
      [⟨"EMAIL_ADDRESS", mkRat 855 1000, 0, 5⟩] ∧
    round2 (mkRat 855 1000) ≠ mkRat 855 1000 := by decide

/-- C3 (amended): only the one-shot CLI rounds scores to two decimal
places (every CLI entity score is a whole number of hundredths); the
service returns the engine's scores unchanged. -/
theorem C3_cli_rounds_service_raw :
    ∀ (others : List RecognizerResult) (t : Text)
      (engineOut : List RecognizerResult) (blocked : Option (List String)),
      (∀ e ∈ (analyze_text_for_pii others t).entities,
        ∃ z : ℤ, e.score = mkRat z 100) ∧
      (analyzeRoute engineOut blocked).entities.map ServiceEntity.score =
        (blockFilter blocked engineOut).map RecognizerResult.score := by
  intro others t engineOut blocked
  constructor
  · intro e he
    simp only [analyze_text_for_pii, List.mem_map] at he
    obtain ⟨r, _, rfl⟩ := he
    exact ⟨_, rfl⟩
  · simp only [analyzeRoute, List.map_map]
    rfl

/-- C3 (witness): the CLI entity produced on "SSN: 123-45-6789" has a
score that is a whole number of hundredths. -/
theorem C3_witness :
    ∃ z : ℤ, (⟨"CUSTOM_SSN", "123-45-6789".data, mkRat 19 20⟩ : CliEntity).score =
      mkRat z 100 :=
  (C3_cli_rounds_service_raw [] "SSN: 123-45-6789".data [] none).1
    ⟨"CUSTOM_SSN", "123-45-6789".data, mkRat 19 20⟩ (by decide)

/-- C5: for every candidate pool and configuration, no two entities of
the engine result overlap, and the service response built from it
preserves this: the output entity set is span-disjoint regardless of
entity type. -/
theorem C5_spans_disjoint :
    ∀ (pool : List RecognizerResult) (allowed : Option (List String)) (θ : ℚ)
      (blocked : Option (List String)),
      (orchestrate pool allowed θ).Pairwise
        (fun a b => spansDisjoint a.start a.end_ b.start b.end_) ∧
      ((analyzeRoute (orchestrate pool allowed θ) blocked).entities).Pairwise
        (fun a b => spansDisjoint a.start a.end_ b.start b.end_) := by
  intro pool allowed θ blocked
  have himp : ∀ {a b : RecognizerResult}, NoOv a b →
      spansDisjoint a.start a.end_ b.start b.end_ := by
    intro a b h
    unfold NoOv overlapsB at h
    unfold spansDisjoint
    simp only [Bool.and_eq_false_iff, decide_eq_false_iff_not, Nat.not_lt] at h
    omega
  have h1 : (orchestrate pool allowed θ).Pairwise
      (fun a b => spansDisjoint a.start a.end_ b.start b.end_) :=
    (pairwise_orchestrate pool allowed θ).imp himp
  refine ⟨h1, ?_⟩
  simp only [analyzeRoute]
  rw [List.pairwise_map]
  exact (h1.sublist (blockFilter_sublist blocked _)).imp (fun h => h)

/-- C6: analyzing the empty string is not an error: given that the
external recognizers' candidates respect the span invariant
`start < end ≤ len(text)`, the CLI returns `{has_pii := false,
entities := []}` and the service answers 200 with the same empty
result. -/
theorem C6_empty_text :
    ∀ (others : List RecognizerResult) (engine : Text → List RecognizerResult)
      (blocked : Option (List String)),
      (∀ c ∈ others, validCandidate [] c) →
      (∀ c ∈ engine [], validCandidate [] c) →
      analyze_text_for_pii others [] = ⟨false, []⟩ ∧
      analyzeEndpoint engine (some ⟨some [], blocked⟩) =
        (Sum.inr ⟨false, []⟩, 200) := by
  intro others engine blocked h1 h2
  have hnil : ∀ (l : List RecognizerResult), (∀ c ∈ l, validCandidate [] c) → l = [] := by
    intro l hl
    rw [List.eq_nil_iff_forall_not_mem]
    intro c hc
    have h3 := hl c hc
    unfold validCandidate at h3
    simp only [List.length_nil] at h3
    omega
  have hothers := hnil others h1
  have heng := hnil (engine []) h2
  subst hothers
  refine ⟨by decide, ?_⟩
  show (Sum.inr (analyzeRoute (engine []) blocked), 200) =
    (Sum.inr (⟨false, []⟩ : ServiceResult), 200)
  rw [heng]
  have hroute : analyzeRoute [] blocked = ⟨false, []⟩ := by
    cases htr : truthy blocked <;> simp [analyzeRoute, blockFilter, htr]
  rw [hroute]

/-- C6 (witness): the empty-text result at concrete inputs. -/
theorem C6_witness :
    analyze_text_for_pii [] [] = ⟨false, []⟩ ∧
    analyzeEndpoint (fun _ => []) (some ⟨some [], none⟩) =
      (Sum.inr ⟨false, []⟩, 200) :=
  C6_empty_text [] (fun _ => []) none (by simp) (by simp)

/-- C8: with no text argument the CLI prints the structured error
object `{'error': 'No text provided'}` and exits with the non-zero
status 1; with a text argument it prints a JSON document of the shape
`{"has_pii": bool, "entities": [{"type", "text", "score"}, ...]}` and
exits 0. -/
theorem C8_cli_output_shape :
    ∀ (others : List RecognizerResult) (argv : List String),
      (argv.length < 2 →
        cliMain others argv =
          (Json.obj [("error", Json.str "No text provided".data)], 1) ∧
        (cliMain others argv).2 ≠ 0) ∧
      (2 ≤ argv.length →
        (cliMain others argv).2 = 0 ∧
        ∃ hp es, (cliMain others argv).1 =
          Json.obj [("has_pii", Json.bool hp), ("entities", Json.arr es)] ∧
          ∀ j ∈ es, ∃ ty tx sc, j =
            Json.obj [("type", Json.str ty), ("text", Json.str tx),
              ("score", Json.num sc)]) := by
  intro others argv
  constructor
  · intro h
    have heq : cliMain others argv =
        (Json.obj [("error", Json.str "No text provided".data)], 1) := by
      unfold cliMain
      rw [if_pos h]
    exact ⟨heq, by rw [heq]; simp⟩
  · intro h
    have hlt : ¬argv.length < 2 := by omega
    have heq : cliMain others argv =
        (encodeCliResult (analyze_text_for_pii others ((argv[1]?.getD "").data)),
          0) := by
      unfold cliMain
      rw [if_neg hlt]
    refine ⟨by rw [heq], ?_⟩
    rw [heq]
    refine ⟨_, _, rfl, ?_⟩
    intro j hj
    simp only [List.mem_map] at hj
    obtain ⟨e, _, rfl⟩ := hj
    exact ⟨_, _, _, rfl⟩

/-- C8 (witness): both branches at concrete argument vectors. -/
theorem C8_witness :
    cliMain [] ["pii-analyzer.py"] =
      (Json.obj [("error", Json.str "No text provided".data)], 1) ∧
    (cliMain [] ["pii-analyzer.py", "hello"]).2 = 0 :=
  ⟨((C8_cli_output_shape [] ["pii-analyzer.py"]).1 (by simp)).1,
   ((C8_cli_output_shape [] ["pii-analyzer.py", "hello"]).2 (by simp)).1⟩

/-- C10: every entity in the CLI output has a type from the requested
set {EMAIL_ADDRESS, PHONE_NUMBER, CUSTOM_SSN, CREDIT_CARD}, for every
input text and any external candidates; the service imposes no such
restriction — a PERSON result is surfaced as-is. -/
theorem C10_entity_type_scope :
    (∀ (others : List RecognizerResult) (t : Text) (e : CliEntity),
      e ∈ (analyze_text_for_pii others t).entities → e.type ∈ cliEntityTypes) ∧
    ((analyzeRoute [⟨"PERSON", 0, 5, mkRat 1 2⟩] none).entities =
        [⟨"PERSON", mkRat 1 2, 0, 5⟩] ∧
      "PERSON" ∉ cliEntityTypes) := by
  refine ⟨?_, by decide⟩
  intro others t e he
  simp only [analyze_text_for_pii, List.mem_map] at he
  obtain ⟨r, hr, rfl⟩ := he
  have h1 := mem_orchestrate hr
  unfold allowedFilter at h1
  rw [List.mem_filter] at h1
  simpa using h1.2

/-- C10 (witness): the CLI entity produced on "SSN: 123-45-6789" has a
type in the requested set. -/
theorem C10_witness :
    (⟨"CUSTOM_SSN", "123-45-6789".data, mkRat 19 20⟩ : CliEntity).type ∈
      cliEntityTypes :=
  C10_entity_type_scope.1 [] "SSN: 123-45-6789".data _ (by decide)
